import Mathlib

/-!
Verification development for the cvd server dispatch engine
(`host/commands/cvd/server.cc`): handler routing, the per-connection
accept/read/handle/interrupt state machine, the scoped cleanup guard,
the epoll registration discipline, and the shutdown wakeup cascade.

The embedding is shallow: `Result<T>` becomes `Except CFErr T`, the
epoll registration table becomes an association list from descriptor to
callback kind, and each C++ function becomes a Lean function threading
the table, the running flag and an event trace explicitly.  External
fallible calls (`GetRequest`, `SendResponse`, `Accept`, handler methods)
are supplied as oracle values in an environment record, so theorems
quantify over every possible outcome of those calls.
-/

/-- Error payload of `Result<T>`; carries the human-readable message. -/
inductive CFErr where
  | msg : String → CFErr
deriving DecidableEq, Repr

/-- Shallow embedding of `cuttlefish::Result<T>`. -/
abbrev CFResult (α : Type) := Except CFErr α

/-- Opaque framed request (`RequestWithStdio`); dispatch never inspects it. -/
structure RequestWithStdio where
  id : Nat
deriving DecidableEq, Repr

/-- Opaque framed response (`cvd::Response`). -/
structure CvdResponse where
  code : Nat
deriving DecidableEq, Repr

/-- A handler's capability surface: `CanHandle`, `Handle`, `Interrupt`,
each fallible as in the C++ interface `CvdServerHandler`. -/
structure CvdServerHandler where
  canHandle : RequestWithStdio → CFResult Bool
  handle : RequestWithStdio → CFResult CvdResponse
  interrupt : CFResult Unit

/-- Kind of callback installed in the epoll pool, naming the closure the
C++ code registers (`AcceptClient` self-callback, `HandleMessage`
self-callback, the interrupt callback, the shutdown no-op callback). -/
inductive CbKind where
  | acceptClient
  | handleMessage
  | interruptCb
  | noopWakeup
deriving DecidableEq, Repr

/-- Modelled from the spec: the `EpollPool` registration table
(`host/commands/cvd/epoll_loop.cc` is not among the given sources).  Per
spec section 4.1 it maps each descriptor to at most one live
`(interest, callback)` entry. -/
abbrev PoolTable := List (Nat × CbKind)

/-- Callback registered for a descriptor, if any. -/
def lookupReg (fd : Nat) : PoolTable → Option CbKind
  | [] => none
  | p :: rest => if p.1 = fd then some p.2 else lookupReg fd rest

/-- Whether a descriptor currently has a live registration. -/
def keyMem (fd : Nat) (t : PoolTable) : Bool := (lookupReg fd t).isSome

/-- Modelled from the spec: `EpollPool::Register` fails if the
descriptor already has a live registration (spec section 4.1), else
installs the callback. -/
def poolRegister (t : PoolTable) (fd : Nat) (cb : CbKind) : CFResult PoolTable :=
  if keyMem fd t then .error (.msg "Already have a callback created")
  else .ok ((fd, cb) :: t)

/-- Modelled from the spec: `EpollPool::Remove` fails if no registration
exists for the descriptor (spec section 4.1), else erases it. -/
def poolRemove (t : PoolTable) (fd : Nat) : CFResult PoolTable :=
  if keyMem fd t then .ok (t.filter (fun p => p.1 != fd))
  else .error (.msg "Remove: no callback registered")

/-- A `Remove` whose result the caller discards, as in the `ScopeGuard`
body and the hangup branch of `HandleMessage`. -/
def removeQuiet (t : PoolTable) (fd : Nat) : PoolTable :=
  match poolRemove t fd with
  | .ok t2 => t2
  | .error _ => t

/-- The routing error of `RequestHandler`, carrying the match count. -/
def routingError (n : Nat) : CFErr :=
  .msg ("Expected exactly one handler for message, found " ++ toString n)

/-- The loop body of `RequestHandler`: evaluate each handler's
`CanHandle` in order, aborting at the first error (`CF_EXPECT`), and
collect the handlers whose predicate returned true. -/
def collectCompatible (request : RequestWithStdio) :
    List CvdServerHandler → CFResult (List CvdServerHandler)
  | [] => .ok []
  | h :: rest => do
    let b ← h.canHandle request
    let tail ← collectCompatible request rest
    if b then .ok (h :: tail) else .ok tail

/-- `RequestHandler` (server.cc lines 109-123): collect compatible
handlers, require exactly one, else fail with the match count. -/
def RequestHandler (request : RequestWithStdio) (handlers : List CvdServerHandler) :
    CFResult CvdServerHandler := do
  let compatible ← collectCompatible request handlers
  match compatible with
  | [h] => .ok h
  | l => .error (routingError l.length)

/-- Handlers whose `CanHandle` returns `.ok true`, in list order. -/
def matchingHandlers (request : RequestWithStdio) :
    List CvdServerHandler → List CvdServerHandler
  | [] => []
  | h :: rest =>
    match h.canHandle request with
    | .ok true => h :: matchingHandlers request rest
    | _ => matchingHandlers request rest

/-- Number of handlers whose predicate matches the request. -/
def matchCount (request : RequestWithStdio) (handlers : List CvdServerHandler) : Nat :=
  (matchingHandlers request handlers).length

/-- First `CanHandle` error hit by the `RequestHandler` loop, if any. -/
def firstCanHandleErr (request : RequestWithStdio) :
    List CvdServerHandler → Option CFErr
  | [] => none
  | h :: rest =>
    match h.canHandle request with
    | .error e => some e
    | .ok _ => firstCanHandleErr request rest

/-- An epoll readiness event: the descriptor plus its `EPOLLIN` and
`EPOLLHUP` bits, the only bits the server code tests. -/
structure EpollEvent where
  fd : Nat
  events_in : Bool
  events_hup : Bool
deriving DecidableEq, Repr

/-- Server-wide mutable state touched by the dispatch code: the epoll
registration table and the atomic `running_` flag. -/
structure ServerState where
  table : PoolTable
  running : Bool
deriving Repr

/-- Observable steps taken by one `HandleMessage` execution, in program
order: epoll calls on the connection's descriptor, the blocking reads
and writes, the handler invocation, the clearing of the shared handler
pointer, and the firing of the scoped failure guard. -/
inductive TraceEv where
  | removeCall (fd : Nat)
  | getRequestCall
  | handleCall
  | registerHup (fd : Nat)
  | sendResponseCall
  | clearHandler
  | registerIn (fd : Nat)
  | guardFired (fd : Nat)
deriving DecidableEq, Repr

/-- Oracle for the external fallible calls one `HandleMessage` run can
make: the framed read (`.ok none` is clean EOF), the handler set
produced by the injector, and the framed response write. -/
structure MsgEnv where
  getRequest : CFResult (Option RequestWithStdio)
  handlers : List CvdServerHandler
  sendResponse : CvdResponse → CFResult Unit

/-- Outcome of one `HandleMessage` run: the returned `Result<void>`,
the final server state, the trace, and whether `abandon_client.Cancel()`
was reached. -/
structure MsgOut where
  result : CFResult Unit
  state : ServerState
  trace : List TraceEv
  guardCancelled : Bool

/-- Function exit with the `abandon_client` scope guard in effect: if it
was not cancelled, its destructor runs `epoll_pool_.Remove(event.fd)`
with the result discarded. -/
def guardExit (fd : Nat) (cancelled : Bool) (res : CFResult Unit)
    (st : ServerState) (tr : List TraceEv) : MsgOut :=
  if cancelled then ⟨res, st, tr, true⟩
  else ⟨res, { st with table := removeQuiet st.table fd }, tr ++ [.guardFired fd], false⟩

/-- `CvdServer::HandleMessage` (server.cc lines 170-223).  The callback
runs after the epoll pool has already consumed the descriptor's one-shot
registration (spec section 4.1: callbacks re-register themselves).
Every early `return` path leaves the scope guard armed; only the final
re-registration path cancels it. -/
def HandleMessage (env : MsgEnv) (ev : EpollEvent) (st : ServerState) : MsgOut :=
  if ev.events_hup then
    guardExit ev.fd false (.ok ())
      { st with table := removeQuiet st.table ev.fd } [.removeCall ev.fd]
  else if ev.events_in = false then
    guardExit ev.fd false (.error (.msg "event.events & EPOLLIN")) st []
  else
    match env.getRequest with
    | .error e => guardExit ev.fd false (.error e) st [.getRequestCall]
    | .ok none =>
      guardExit ev.fd false (.ok ())
        { st with table := removeQuiet st.table ev.fd }
        [.getRequestCall, .removeCall ev.fd]
    | .ok (some request) =>
      match RequestHandler request env.handlers with
      | .error e => guardExit ev.fd false (.error e) st [.getRequestCall]
      | .ok handler =>
        match poolRegister st.table ev.fd .interruptCb with
        | .error e =>
          guardExit ev.fd false (.error e) st [.getRequestCall, .registerHup ev.fd]
        | .ok t1 =>
          match handler.handle request with
          | .error e =>
            guardExit ev.fd false (.error e) { st with table := t1 }
              [.getRequestCall, .registerHup ev.fd, .handleCall]
          | .ok response =>
            match env.sendResponse response with
            | .error e =>
              guardExit ev.fd false (.error e) { st with table := t1 }
                [.getRequestCall, .registerHup ev.fd, .handleCall, .sendResponseCall]
            | .ok _ =>
              match poolRemove t1 ev.fd with
              | .error e =>
                guardExit ev.fd false (.error e) { st with table := t1 }
                  [.getRequestCall, .registerHup ev.fd, .handleCall,
                   .sendResponseCall, .clearHandler, .removeCall ev.fd]
              | .ok t2 =>
                match poolRegister t2 ev.fd .handleMessage with
                | .error e =>
                  guardExit ev.fd false (.error e) { st with table := t2 }
                    [.getRequestCall, .registerHup ev.fd, .handleCall,
                     .sendResponseCall, .clearHandler, .removeCall ev.fd,
                     .registerIn ev.fd]
                | .ok t3 =>
                  guardExit ev.fd true (.ok ()) { st with table := t3 }
                    [.getRequestCall, .registerHup ev.fd, .handleCall,
                     .sendResponseCall, .clearHandler, .removeCall ev.fd,
                     .registerIn ev.fd]

/-- Oracle for `AcceptClient`: the outcome of
`SharedFD::Accept` plus the `IsOpen` check, yielding the client fd. -/
structure AcceptEnv where
  acceptResult : CFResult Nat

/-- Outcome of one `AcceptClient` run. -/
structure AcceptOut where
  result : CFResult Unit
  state : ServerState
  guardCancelled : Bool

/-- Function exit with the `stop_on_failure` guard in effect: if not
cancelled, its destructor runs `Stop()`, clearing the running flag. -/
def acceptGuardExit (cancelled : Bool) (res : CFResult Unit) (st : ServerState) : AcceptOut :=
  if cancelled then ⟨res, st, true⟩
  else ⟨res, { st with running := false }, false⟩

/-- `CvdServer::AcceptClient` (server.cc lines 148-168), running after
the listener's one-shot registration was consumed by dispatch: accept,
register the client for reads, re-register the listener, and stop the
whole server via the scope guard when any step fails. -/
def AcceptClient (env : AcceptEnv) (ev : EpollEvent) (st : ServerState) : AcceptOut :=
  if ev.events_in = false then
    acceptGuardExit false (.error (.msg "event.events & EPOLLIN")) st
  else
    match env.acceptResult with
    | .error e => acceptGuardExit false (.error e) st
    | .ok client_fd =>
      match poolRegister st.table client_fd .handleMessage with
      | .error e => acceptGuardExit false (.error e) st
      | .ok t1 =>
        match poolRegister t1 ev.fd .acceptClient with
        | .error e => acceptGuardExit false (.error e) { st with table := t1 }
        | .ok t2 => acceptGuardExit true (.ok ()) { st with table := t2 }

/-- Events observable inside one run of the interrupt callback. -/
inductive CbEv where
  | lockAcquire
  | interruptCall
deriving DecidableEq, Repr

/-- The per-request Shared Dispatch State (server.cc lines 191-195): the
handler pointer guarded by the mutex; `none` models the cleared pointer. -/
structure SharedState where
  handler : Option CvdServerHandler

/-- The interrupt callback (server.cc lines 198-203): take the lock,
`CF_EXPECT` the pointer to be non-null, then `CF_EXPECT` the handler's
`Interrupt()`.  Returns the callback's `Result<void>` and its trace. -/
def interrupt_cb (shared : SharedState) : CFResult Unit × List CbEv :=
  match shared.handler with
  | none => (.error (.msg "shared->handler != nullptr"), [CbEv.lockAcquire])
  | some h =>
    match h.interrupt with
    | .ok _ => (.ok (), [CbEv.lockAcquire, CbEv.interruptCall])
    | .error e => (.error e, [CbEv.lockAcquire, CbEv.interruptCall])

/-- `kNumThreads` (server.cc line 59). -/
def kNumThreads : Nat := 10

/-- Abstract state of the worker pool during shutdown: the `running_`
flag, the number of armed always-signaled wakeup descriptors live in the
pool, the number of worker threads still blocked in `HandleEvent`, the
number that have exited, and how many fresh signals exiting threads have
armed via `BestEffortWakeup` (server.cc lines 66-75 and 86-97). -/
structure ShutdownState where
  running : Bool
  wakeSignals : Nat
  blocked : Nat
  exited : Nat
  armedOnExit : Nat
deriving DecidableEq, Repr

/-- Modelled from the spec: `CvdServer::Stop` plus the owner's first
`BestEffortWakeup` — flip the flag and arm one always-signaled eventfd
registration with a no-op callback (spec section 4.2; the `EpollPool`
bookkeeping itself is not among the given sources). -/
def stopAndWake (s : ShutdownState) : ShutdownState :=
  { s with running := false, wakeSignals := s.wakeSignals + 1 }

/-- Modelled from the spec: one blocked worker consumes an armed wakeup
registration (one-shot, per spec section 4.1), runs the no-op callback,
rechecks `running_`, finds it false, exits its loop, and arms one
brand-new signal via `BestEffortWakeup` before terminating (server.cc
lines 66-75; the wait-and-dispatch internals are not among the given
sources). -/
def workerExitStep (s : ShutdownState) : ShutdownState :=
  if s.running = false ∧ 0 < s.blocked ∧ 0 < s.wakeSignals then
    { running := s.running
      wakeSignals := s.wakeSignals - 1 + 1
      blocked := s.blocked - 1
      exited := s.exited + 1
      armedOnExit := s.armedOnExit + 1 }
  else s

/-- `CvdServer::Join` returns exactly when no worker thread remains. -/
def joinReturns (s : ShutdownState) : Bool := s.blocked == 0

/-- Keys of the registration table are pairwise distinct: the
one-live-registration-per-descriptor invariant. -/
def keysNodup (t : PoolTable) : Prop := (t.map Prod.fst).Nodup

/-- Sample request used by concrete witnesses. -/
def req0 : RequestWithStdio := ⟨0⟩

/-- Handler that always claims requests and succeeds. -/
def hTrue : CvdServerHandler :=
  { canHandle := fun _ => .ok true
    handle := fun _ => .ok ⟨0⟩
    interrupt := .ok () }

/-- Handler that never claims requests. -/
def hFalse : CvdServerHandler :=
  { canHandle := fun _ => .ok false
    handle := fun _ => .ok ⟨1⟩
    interrupt := .ok () }

/-- Handler whose capability predicate itself fails. -/
def hErr : CvdServerHandler :=
  { canHandle := fun _ => .error (.msg "boom")
    handle := fun _ => .ok ⟨2⟩
    interrupt := .ok () }

/-- Environment whose framed read fails, for read-failure scenarios. -/
def envReadFail : MsgEnv :=
  { getRequest := .error (.msg "read failed")
    handlers := [hTrue]
    sendResponse := fun _ => .ok () }

/-- Environment for a successful request/response cycle. -/
def envOk : MsgEnv :=
  { getRequest := .ok (some req0)
    handlers := [hTrue, hFalse]
    sendResponse := fun _ => .ok () }

/-- Environment whose request matches both of two handlers. -/
def envAmbiguous : MsgEnv :=
  { getRequest := .ok (some req0)
    handlers := [hTrue, hTrue]
    sendResponse := fun _ => .ok () }

/-- Read-ready event on descriptor 5. -/
def evIn5 : EpollEvent := ⟨5, true, false⟩

/-- Hangup event on descriptor 5. -/
def evHup5 : EpollEvent := ⟨5, false, true⟩

/-- Running server state with only the listener (descriptor 3)
registered; descriptor 5's one-shot entry was consumed at dispatch. -/
def stRun : ServerState := ⟨[(3, CbKind.acceptClient)], true⟩

/-- Accept environment producing client descriptor 5. -/
def envAccept : AcceptEnv := ⟨.ok 5⟩

/-- Accept environment whose accept call fails. -/
def envAcceptFail : AcceptEnv := ⟨.error (.msg "accept failed")⟩

/-- True iff no re-arming of the read callback for `fd` occurs before
the first completed response write in a trace: the connection-sequencing
discipline. -/
def sendBeforeRegisterIn (fd : Nat) : List TraceEv → Bool
  | [] => true
  | e :: rest =>
    if e = TraceEv.registerIn fd then false
    else if e = TraceEv.sendResponseCall then true
    else sendBeforeRegisterIn fd rest

theorem lookupReg_filter_self (t : PoolTable) (fd : Nat) :
    lookupReg fd (t.filter (fun p => p.1 != fd)) = none := by
  induction t with
  | nil => rfl
  | cons p rest ih =>
    by_cases h : p.1 = fd
    · simpa [List.filter_cons, h] using ih
    · simpa [List.filter_cons, h, lookupReg] using ih

theorem lookupReg_filter_other (t : PoolTable) (fd g : Nat) (hne : g ≠ fd) :
    lookupReg g (t.filter (fun p => p.1 != fd)) = lookupReg g t := by
  have hfg : ¬ fd = g := fun hc => hne hc.symm
  induction t with
  | nil => rfl
  | cons p rest ih =>
    by_cases h : p.1 = fd
    · simp [List.filter_cons, h, lookupReg, hfg, ih]
    · by_cases hpg : p.1 = g
      · simp [List.filter_cons, h, lookupReg, hpg, hne, ih]
      · simp [List.filter_cons, h, lookupReg, hpg, hne, ih]

theorem lookupReg_removeQuiet_self (t : PoolTable) (fd : Nat) :
    lookupReg fd (removeQuiet t fd) = none := by
  unfold removeQuiet poolRemove
  by_cases h : keyMem fd t
  · simp [h, lookupReg_filter_self]
  · simp [h]
    have : (lookupReg fd t).isSome = false := by simpa [keyMem] using h
    cases hl : lookupReg fd t
    · rfl
    · rw [hl] at this; simp at this

theorem lookupReg_removeQuiet_other (t : PoolTable) (fd g : Nat) (hne : g ≠ fd) :
    lookupReg g (removeQuiet t fd) = lookupReg g t := by
  unfold removeQuiet poolRemove
  by_cases h : keyMem fd t
  · simp [h, lookupReg_filter_other t fd g hne]
  · simp [h]

theorem lookupReg_cons_other (t : PoolTable) (fd g : Nat) (cb : CbKind) (hne : g ≠ fd) :
    lookupReg g ((fd, cb) :: t) = lookupReg g t := by
  have hfg : ¬ fd = g := fun hc => hne hc.symm
  simp [lookupReg, hfg]

theorem poolRegister_ok_eq (t : PoolTable) (fd : Nat) (cb : CbKind) (t2 : PoolTable)
    (h : poolRegister t fd cb = .ok t2) :
    keyMem fd t = false ∧ t2 = (fd, cb) :: t := by
  unfold poolRegister at h
  by_cases hk : keyMem fd t
  · simp [hk] at h
  · simp [hk] at h
    exact ⟨by simpa using hk, h.symm⟩

theorem poolRemove_ok_eq (t : PoolTable) (fd : Nat) (t2 : PoolTable)
    (h : poolRemove t fd = .ok t2) :
    keyMem fd t = true ∧ t2 = t.filter (fun p => p.1 != fd) := by
  unfold poolRemove at h
  by_cases hk : keyMem fd t
  · simp [hk] at h
    exact ⟨hk, h.symm⟩
  · simp [hk] at h

theorem cfBind_ok {α β : Type} (a : α) (f : α → CFResult β) :
    (Except.ok a : CFResult α) >>= f = f a := rfl

theorem cfBind_err {α β : Type} (e : CFErr) (f : α → CFResult β) :
    (Except.error e : CFResult α) >>= f = Except.error e := rfl

theorem keyMem_false_iff (fd : Nat) (t : PoolTable) :
    keyMem fd t = false ↔ fd ∉ t.map Prod.fst := by
  induction t with
  | nil => simp [keyMem, lookupReg]
  | cons p rest ih =>
    by_cases h : p.1 = fd
    · simp [keyMem, lookupReg, h]
    · have hfp : ¬ fd = p.1 := fun hc => h hc.symm
      rw [show keyMem fd (p :: rest) = keyMem fd rest by simp [keyMem, lookupReg, h]]
      simp [hfp, ih]

theorem keysNodup_filter (t : PoolTable) (fd : Nat) (h : keysNodup t) :
    keysNodup (t.filter (fun p => p.1 != fd)) := by
  unfold keysNodup at h ⊢
  exact ((List.filter_sublist t).map Prod.fst).nodup h

theorem keysNodup_removeQuiet (t : PoolTable) (fd : Nat) (h : keysNodup t) :
    keysNodup (removeQuiet t fd) := by
  unfold removeQuiet poolRemove
  by_cases hk : keyMem fd t
  · simpa [hk] using keysNodup_filter t fd h
  · simpa [hk] using h

theorem keysNodup_poolRegister (t : PoolTable) (fd : Nat) (cb : CbKind) (t2 : PoolTable)
    (h : keysNodup t) (hr : poolRegister t fd cb = .ok t2) : keysNodup t2 := by
  obtain ⟨hk, rfl⟩ := poolRegister_ok_eq t fd cb t2 hr
  unfold keysNodup at h ⊢
  simpa [List.nodup_cons, h] using (keyMem_false_iff fd t).mp hk

theorem keysNodup_poolRemove (t : PoolTable) (fd : Nat) (t2 : PoolTable)
    (h : keysNodup t) (hr : poolRemove t fd = .ok t2) : keysNodup t2 := by
  obtain ⟨hk, rfl⟩ := poolRemove_ok_eq t fd t2 hr
  exact keysNodup_filter t fd h

theorem poolRemove_absent (t : PoolTable) (fd : Nat) (h : keyMem fd t = false) :
    poolRemove t fd = .error (.msg "Remove: no callback registered") := by
  simp [poolRemove, h]

theorem collectCompatible_ok (request : RequestWithStdio) (handlers : List CvdServerHandler)
    (hok : ∀ h ∈ handlers, (h.canHandle request).isOk = true) :
    collectCompatible request handlers = .ok (matchingHandlers request handlers) := by
  induction handlers with
  | nil => rfl
  | cons h rest ih =>
    have hh := hok h (List.mem_cons_self _ _)
    have hrest : ∀ g ∈ rest, (g.canHandle request).isOk = true :=
      fun g hg => hok g (List.mem_cons_of_mem _ hg)
    cases hcb : h.canHandle request with
    | error e => rw [hcb] at hh; simp [Except.isOk, Except.toBool] at hh
    | ok b =>
      cases b
      · simp [collectCompatible, matchingHandlers, hcb, ih hrest, cfBind_ok]
      · simp [collectCompatible, matchingHandlers, hcb, ih hrest, cfBind_ok]

theorem collectCompatible_err (request : RequestWithStdio) (handlers : List CvdServerHandler)
    (e : CFErr) (hfe : firstCanHandleErr request handlers = some e) :
    collectCompatible request handlers = .error e := by
  induction handlers with
  | nil => simp [firstCanHandleErr] at hfe
  | cons h rest ih =>
    cases hcb : h.canHandle request with
    | error e2 =>
      rw [firstCanHandleErr, hcb] at hfe
      simp at hfe
      simp [collectCompatible, hcb, hfe, cfBind_err]
    | ok b =>
      rw [firstCanHandleErr, hcb] at hfe
      simp [collectCompatible, hcb, ih hfe, cfBind_ok, cfBind_err]

theorem RequestHandler_eq_of_ok (request : RequestWithStdio) (handlers : List CvdServerHandler)
    (hok : ∀ h ∈ handlers, (h.canHandle request).isOk = true) :
    RequestHandler request handlers =
      match matchingHandlers request handlers with
      | [h] => .ok h
      | l => .error (routingError l.length) := by
  simp [RequestHandler, collectCompatible_ok request handlers hok, cfBind_ok]

theorem RequestHandler_routing_err (request : RequestWithStdio)
    (handlers : List CvdServerHandler)
    (hok : ∀ h ∈ handlers, (h.canHandle request).isOk = true)
    (hne : matchCount request handlers ≠ 1) :
    RequestHandler request handlers = .error (routingError (matchCount request handlers)) := by
  rw [RequestHandler_eq_of_ok request handlers hok]
  unfold matchCount at hne ⊢
  cases hm : matchingHandlers request handlers with
  | nil => simp
  | cons h rest =>
    cases rest with
    | nil => rw [hm] at hne; simp at hne
    | cons h2 rest2 => simp

/-- C1: for any request and handler set whose capability predicates all
evaluate without error, `RequestHandler` succeeds with a handler iff
exactly one predicate returns true; with zero or several matches it
returns the routing error carrying the match count, and on such a
request `HandleMessage` invokes no handler's `Handle`. -/
theorem routing_exclusivity (request : RequestWithStdio) (handlers : List CvdServerHandler)
    (hok : ∀ h ∈ handlers, (h.canHandle request).isOk = true) :
    ((∃ h, RequestHandler request handlers = .ok h) ↔ matchCount request handlers = 1)
    ∧ (matchCount request handlers ≠ 1 →
        RequestHandler request handlers = .error (routingError (matchCount request handlers)))
    ∧ (∀ env ev st, env.handlers = handlers → env.getRequest = .ok (some request) →
        matchCount request handlers ≠ 1 →
        TraceEv.handleCall ∉ (HandleMessage env ev st).trace) := by
  refine ⟨?_, RequestHandler_routing_err request handlers hok, ?_⟩
  · constructor
    · rintro ⟨h, hh⟩
      rw [RequestHandler_eq_of_ok request handlers hok] at hh
      unfold matchCount
      cases hm : matchingHandlers request handlers with
      | nil => rw [hm] at hh; simp at hh
      | cons h1 rest =>
        cases rest with
        | nil => simp
        | cons h2 rest2 => rw [hm] at hh; simp at hh
    · intro hone
      rw [RequestHandler_eq_of_ok request handlers hok]
      unfold matchCount at hone
      cases hm : matchingHandlers request handlers with
      | nil => rw [hm] at hone; simp at hone
      | cons h1 rest =>
        cases rest with
        | nil => exact ⟨h1, rfl⟩
        | cons h2 rest2 => rw [hm] at hone; simp at hone
  · intro env ev st henv hreq hne
    have hrh : RequestHandler request env.handlers =
        .error (routingError (matchCount request handlers)) := by
      rw [henv]; exact RequestHandler_routing_err request handlers hok hne
    cases hhup : ev.events_hup
    · cases hin : ev.events_in
      · simp [HandleMessage, hhup, hin, guardExit]
      · simp [HandleMessage, hhup, hin, hreq, hrh, guardExit]
    · simp [HandleMessage, hhup, guardExit]

/-- C1 witness: two concrete handlers, exactly one matching. -/
theorem routing_exclusivity_witness :
    matchCount req0 [hTrue, hFalse] = 1
    ∧ ∃ h, RequestHandler req0 [hTrue, hFalse] = .ok h := by
  have hok : ∀ h ∈ [hTrue, hFalse], (h.canHandle req0).isOk = true := by
    intro h hh
    rcases List.mem_cons.mp hh with rfl | hh2
    · rfl
    · rcases List.mem_cons.mp hh2 with rfl | hh3
      · rfl
      · cases hh3
  exact ⟨rfl, (routing_exclusivity req0 [hTrue, hFalse] hok).1.mpr rfl⟩

/-- C10: if some handler's `CanHandle` fails, `RequestHandler` returns
the first such error and selects no handler, regardless of any other
handler's unique match. -/
theorem canhandle_error_short_circuits (request : RequestWithStdio)
    (handlers : List CvdServerHandler) (e : CFErr)
    (hfe : firstCanHandleErr request handlers = some e) :
    RequestHandler request handlers = .error e := by
  simp [RequestHandler, collectCompatible_err request handlers e hfe, cfBind_err]

/-- C10 witness: an erroring predicate beats a uniquely matching one. -/
theorem canhandle_error_short_circuits_witness :
    firstCanHandleErr req0 [hErr, hTrue] = some (.msg "boom")
    ∧ matchCount req0 [hErr, hTrue] = 1
    ∧ RequestHandler req0 [hErr, hTrue] = .error (.msg "boom") :=
  ⟨rfl, rfl, canhandle_error_short_circuits req0 [hErr, hTrue] (.msg "boom") rfl⟩

/-- C2 counterexample: with the handler reference already cleared, the
interrupt callback does not return success — its `CF_EXPECT` on the
non-null check fails, so the callback returns an error result. -/
theorem interrupt_cb_cleared_errors_cex :
    (interrupt_cb { handler := none }).1 = .error (.msg "shared->handler != nullptr")
    ∧ (interrupt_cb { handler := none }).1 ≠ .ok () := by
  refine ⟨rfl, ?_⟩
  intro h
  simp [interrupt_cb] at h

/-- C2 (amended): every run of the interrupt callback first takes the
Shared Dispatch State's mutex; if the handler reference is still set it
invokes that handler's `Interrupt()` exactly once and returns its
result; if the reference was already cleared it invokes no `Interrupt()`
and returns the error of the failed non-null `CF_EXPECT` rather than
success. -/
theorem interrupt_cb_spec (s : SharedState) :
    (interrupt_cb s).2.head? = some CbEv.lockAcquire
    ∧ (∀ h, s.handler = some h →
        (interrupt_cb s).1 = h.interrupt
        ∧ (interrupt_cb s).2 = [CbEv.lockAcquire, CbEv.interruptCall])
    ∧ (s.handler = none →
        (interrupt_cb s).1 = .error (.msg "shared->handler != nullptr")
        ∧ CbEv.interruptCall ∉ (interrupt_cb s).2) := by
  obtain ⟨oh⟩ := s
  cases oh with
  | none =>
    refine ⟨rfl, ?_, ?_⟩
    · intro h hcon; cases hcon
    · intro _
      refine ⟨rfl, ?_⟩
      simp [interrupt_cb]
  | some h =>
    refine ⟨?_, ?_, ?_⟩
    · cases hi : h.interrupt <;> simp [interrupt_cb, hi]
    · intro h2 hh2
      cases hh2
      cases hi : h.interrupt with
      | error e => simp [interrupt_cb, hi]
      | ok u => simp [interrupt_cb, hi]
    · intro hcon; cases hcon

/-- C2 witness: the amended statement applied with a live handler. -/
theorem interrupt_cb_spec_witness :
    (interrupt_cb { handler := some hTrue }).1 = hTrue.interrupt
    ∧ (interrupt_cb { handler := some hTrue }).2 = [CbEv.lockAcquire, CbEv.interruptCall] :=
  (interrupt_cb_spec { handler := some hTrue }).2.1 hTrue rfl

theorem workerExitStep_iter (n : Nat) :
    ∀ e a : Nat, workerExitStep^[n] ⟨false, 1, n, e, a⟩ = ⟨false, 1, 0, e + n, a + n⟩ := by
  induction n with
  | zero => intro e a; simp
  | succ n ih =>
    intro e a
    rw [Function.iterate_succ_apply]
    have hstep : workerExitStep ⟨false, 1, n + 1, e, a⟩ = ⟨false, 1, n, e + 1, a + 1⟩ := by
      simp [workerExitStep]
    have h1 : e + 1 + n = e + (n + 1) := by omega
    have h2 : a + 1 + n = a + (n + 1) := by omega
    rw [hstep, ih (e + 1) (a + 1), h1, h2]

/-- C3: from a pool of n workers all blocked with no client traffic,
requesting shutdown (flag cleared plus one armed always-signaled wakeup
with a no-op callback) leads in n wake rounds to all n threads having
observed the flag and exited, each arming one brand-new signal via
`BestEffortWakeup` on its way out, after which `Join()` returns; shown
both for arbitrary n and for the server's `kNumThreads` pool. -/
theorem shutdown_liveness (n : Nat) :
    workerExitStep^[n] (stopAndWake ⟨true, 0, n, 0, 0⟩) = ⟨false, 1, 0, n, n⟩
    ∧ joinReturns (workerExitStep^[n] (stopAndWake ⟨true, 0, n, 0, 0⟩)) = true
    ∧ workerExitStep^[kNumThreads] (stopAndWake ⟨true, 0, kNumThreads, 0, 0⟩)
        = ⟨false, 1, 0, kNumThreads, kNumThreads⟩ := by
  have h : stopAndWake ⟨true, 0, n, 0, 0⟩ = ⟨false, 1, n, 0, 0⟩ := rfl
  have hk : stopAndWake ⟨true, 0, kNumThreads, 0, 0⟩ = ⟨false, 1, kNumThreads, 0, 0⟩ := rfl
  refine ⟨?_, ?_, ?_⟩
  · rw [h, workerExitStep_iter n 0 0]; simp
  · rw [h, workerExitStep_iter n 0 0]; rfl
  · rw [hk, workerExitStep_iter kNumThreads 0 0]; simp

theorem HandleMessage_cases (env : MsgEnv) (ev : EpollEvent) (st : ServerState) :
    (HandleMessage env ev st = ⟨.ok (),
        ⟨removeQuiet (removeQuiet st.table ev.fd) ev.fd, st.running⟩,
        [.removeCall ev.fd, .guardFired ev.fd], false⟩)
    ∨ (HandleMessage env ev st = ⟨.error (.msg "event.events & EPOLLIN"),
        ⟨removeQuiet st.table ev.fd, st.running⟩, [.guardFired ev.fd], false⟩)
    ∨ (∃ e, HandleMessage env ev st = ⟨.error e,
        ⟨removeQuiet st.table ev.fd, st.running⟩,
        [.getRequestCall, .guardFired ev.fd], false⟩)
    ∨ (HandleMessage env ev st = ⟨.ok (),
        ⟨removeQuiet (removeQuiet st.table ev.fd) ev.fd, st.running⟩,
        [.getRequestCall, .removeCall ev.fd, .guardFired ev.fd], false⟩)
    ∨ (∃ e, HandleMessage env ev st = ⟨.error e,
        ⟨removeQuiet st.table ev.fd, st.running⟩,
        [.getRequestCall, .registerHup ev.fd, .guardFired ev.fd], false⟩)
    ∨ (∃ t1 e, poolRegister st.table ev.fd CbKind.interruptCb = .ok t1
        ∧ HandleMessage env ev st = ⟨.error e, ⟨removeQuiet t1 ev.fd, st.running⟩,
          [.getRequestCall, .registerHup ev.fd, .handleCall, .guardFired ev.fd], false⟩)
    ∨ (∃ t1 e, poolRegister st.table ev.fd CbKind.interruptCb = .ok t1
        ∧ HandleMessage env ev st = ⟨.error e, ⟨removeQuiet t1 ev.fd, st.running⟩,
          [.getRequestCall, .registerHup ev.fd, .handleCall, .sendResponseCall,
           .guardFired ev.fd], false⟩)
    ∨ (∃ t1 e, poolRegister st.table ev.fd CbKind.interruptCb = .ok t1
        ∧ HandleMessage env ev st = ⟨.error e, ⟨removeQuiet t1 ev.fd, st.running⟩,
          [.getRequestCall, .registerHup ev.fd, .handleCall, .sendResponseCall,
           .clearHandler, .removeCall ev.fd, .guardFired ev.fd], false⟩)
    ∨ (∃ t1 t2 e, poolRegister st.table ev.fd CbKind.interruptCb = .ok t1
        ∧ poolRemove t1 ev.fd = .ok t2
        ∧ HandleMessage env ev st = ⟨.error e, ⟨removeQuiet t2 ev.fd, st.running⟩,
          [.getRequestCall, .registerHup ev.fd, .handleCall, .sendResponseCall,
           .clearHandler, .removeCall ev.fd, .registerIn ev.fd, .guardFired ev.fd], false⟩)
    ∨ (∃ t1 t2 t3, poolRegister st.table ev.fd CbKind.interruptCb = .ok t1
        ∧ poolRemove t1 ev.fd = .ok t2
        ∧ poolRegister t2 ev.fd CbKind.handleMessage = .ok t3
        ∧ HandleMessage env ev st = ⟨.ok (), ⟨t3, st.running⟩,
          [.getRequestCall, .registerHup ev.fd, .handleCall, .sendResponseCall,
           .clearHandler, .removeCall ev.fd, .registerIn ev.fd], true⟩) := by
  cases hhup : ev.events_hup with
  | true =>
    exact Or.inl (by simp [HandleMessage, hhup, guardExit])
  | false =>
    cases hin : ev.events_in with
    | false =>
      exact Or.inr (Or.inl (by simp [HandleMessage, hhup, hin, guardExit]))
    | true =>
      cases hreq : env.getRequest with
      | error e =>
        exact Or.inr (Or.inr (Or.inl
          ⟨e, by simp [HandleMessage, hhup, hin, hreq, guardExit]⟩))
      | ok oreq =>
        cases oreq with
        | none =>
          exact Or.inr (Or.inr (Or.inr (Or.inl
            (by simp [HandleMessage, hhup, hin, hreq, guardExit]))))
        | some request =>
          cases hrh : RequestHandler request env.handlers with
          | error e =>
            exact Or.inr (Or.inr (Or.inl
              ⟨e, by simp [HandleMessage, hhup, hin, hreq, hrh, guardExit]⟩))
          | ok handler =>
            cases hreg : poolRegister st.table ev.fd CbKind.interruptCb with
            | error e =>
              exact Or.inr (Or.inr (Or.inr (Or.inr (Or.inl
                ⟨e, by simp [HandleMessage, hhup, hin, hreq, hrh, hreg, guardExit]⟩))))
            | ok t1 =>
              cases hh : handler.handle request with
              | error e =>
                exact Or.inr (Or.inr (Or.inr (Or.inr (Or.inr (Or.inl
                  ⟨t1, e, rfl,
                   by simp [HandleMessage, hhup, hin, hreq, hrh, hreg, hh, guardExit]⟩)))))
              | ok resp =>
                cases hsr : env.sendResponse resp with
                | error e =>
                  exact Or.inr (Or.inr (Or.inr (Or.inr (Or.inr (Or.inr (Or.inl
                    ⟨t1, e, rfl,
                     by simp [HandleMessage, hhup, hin, hreq, hrh, hreg, hh, hsr,
                              guardExit]⟩))))))
                | ok u =>
                  cases hrm : poolRemove t1 ev.fd with
                  | error e =>
                    exact Or.inr (Or.inr (Or.inr (Or.inr (Or.inr (Or.inr (Or.inr
                      (Or.inl ⟨t1, e, rfl,
                       by simp [HandleMessage, hhup, hin, hreq, hrh, hreg, hh, hsr, hrm,
                                guardExit]⟩)))))))
                  | ok t2 =>
                    cases hreg2 : poolRegister t2 ev.fd CbKind.handleMessage with
                    | error e =>
                      exact Or.inr (Or.inr (Or.inr (Or.inr (Or.inr (Or.inr (Or.inr (Or.inr
                        (Or.inl ⟨t1, t2, e, rfl, hrm,
                         by simp [HandleMessage, hhup, hin, hreq, hrh, hreg, hh, hsr, hrm,
                                  hreg2, guardExit]⟩))))))))
                    | ok t3 =>
                      exact Or.inr (Or.inr (Or.inr (Or.inr (Or.inr (Or.inr (Or.inr (Or.inr
                        (Or.inr ⟨t1, t2, t3, rfl, hrm, hreg2,
                         by simp [HandleMessage, hhup, hin, hreq, hrh, hreg, hh, hsr, hrm,
                                  hreg2, guardExit]⟩))))))))

theorem lookupReg_register_other (t : PoolTable) (fd g : Nat) (cb : CbKind)
    (t1 : PoolTable) (hreg : poolRegister t fd cb = .ok t1) (hg : g ≠ fd) :
    lookupReg g t1 = lookupReg g t := by
  obtain ⟨_, rfl⟩ := poolRegister_ok_eq t fd cb t1 hreg
  exact lookupReg_cons_other t fd g cb hg

theorem lookupReg_remove_other (t1 : PoolTable) (fd g : Nat) (t2 : PoolTable)
    (hrm : poolRemove t1 fd = .ok t2) (hg : g ≠ fd) :
    lookupReg g t2 = lookupReg g t1 := by
  obtain ⟨_, rfl⟩ := poolRemove_ok_eq t1 fd t2 hrm
  exact lookupReg_filter_other t1 fd g hg

/-- C9: on a peer-hangup readiness event, `HandleMessage` calls `Remove`
on the connection's descriptor, leaves it with no live registration,
and returns success without reading a request or writing a response. -/
theorem hangup_drop (env : MsgEnv) (ev : EpollEvent) (st : ServerState)
    (hhup : ev.events_hup = true) :
    (HandleMessage env ev st).result = .ok ()
    ∧ lookupReg ev.fd (HandleMessage env ev st).state.table = none
    ∧ TraceEv.removeCall ev.fd ∈ (HandleMessage env ev st).trace
    ∧ TraceEv.getRequestCall ∉ (HandleMessage env ev st).trace
    ∧ TraceEv.sendResponseCall ∉ (HandleMessage env ev st).trace := by
  simp [HandleMessage, hhup, guardExit, lookupReg_removeQuiet_self]

/-- C9 witness: hangup on a concrete connection. -/
theorem hangup_drop_witness :
    (HandleMessage envOk evHup5 stRun).result = .ok ()
    ∧ lookupReg evHup5.fd (HandleMessage envOk evHup5 stRun).state.table = none :=
  ⟨(hangup_drop envOk evHup5 stRun rfl).1, (hangup_drop envOk evHup5 stRun rfl).2.1⟩

/-- C4 counterexample: on a failing read (`GetRequest` returns an
error), `HandleMessage` surfaces the error but the running flag stays
true — the whole server is not stopped, contrary to the claim. -/
theorem read_failure_keeps_running_cex :
    (HandleMessage envReadFail evIn5 stRun).result = .error (.msg "read failed")
    ∧ (HandleMessage envReadFail evIn5 stRun).state.running = true := by
  constructor <;> rfl

/-- C4 (amended): a read failure drops that connection — the error
propagates to the worker loop, the failure guard leaves the descriptor
with no live registration and nothing re-arms it — but the server keeps
running: the running flag and every other descriptor's registration are
unchanged. -/
theorem read_failure_drops_connection (env : MsgEnv) (ev : EpollEvent)
    (st : ServerState) (e : CFErr) (hhup : ev.events_hup = false)
    (hin : ev.events_in = true) (hreq : env.getRequest = .error e) :
    (HandleMessage env ev st).result = .error e
    ∧ lookupReg ev.fd (HandleMessage env ev st).state.table = none
    ∧ (HandleMessage env ev st).state.running = st.running
    ∧ ∀ g, g ≠ ev.fd →
        lookupReg g (HandleMessage env ev st).state.table = lookupReg g st.table := by
  refine ⟨?_, ?_, ?_, ?_⟩ <;>
    simp [HandleMessage, hhup, hin, hreq, guardExit, lookupReg_removeQuiet_self]
  intro g hg
  exact lookupReg_removeQuiet_other st.table ev.fd g hg

/-- C4 witness: the amended statement at a concrete failing read. -/
theorem read_failure_drops_connection_witness :
    (HandleMessage envReadFail evIn5 stRun).result = .error (.msg "read failed")
    ∧ (HandleMessage envReadFail evIn5 stRun).state.running = stRun.running :=
  let h := read_failure_drops_connection envReadFail evIn5 stRun
    (.msg "read failed") rfl rfl rfl
  ⟨h.1, h.2.2.1⟩

/-- C5: any `HandleMessage` failure (bad event mask, routing, handler,
response write, re-registration) affects only that connection — the
running flag is preserved and every other descriptor's registration is
untouched — while an `AcceptClient` failure is the documented fatal
case: its scope guard stops the whole server. -/
theorem connection_scoped_failure (env : MsgEnv) (aenv : AcceptEnv)
    (ev : EpollEvent) (st : ServerState) :
    (HandleMessage env ev st).state.running = st.running
    ∧ (∀ g, g ≠ ev.fd →
        lookupReg g (HandleMessage env ev st).state.table = lookupReg g st.table)
    ∧ (∀ e, (AcceptClient aenv ev st).result = .error e →
        (AcceptClient aenv ev st).state.running = false) := by
  refine ⟨?_, ?_, ?_⟩
  · rcases HandleMessage_cases env ev st with ho | ho | ⟨e, ho⟩ | ho | ⟨e, ho⟩ |
        ⟨t1, e, hreg, ho⟩ | ⟨t1, e, hreg, ho⟩ | ⟨t1, e, hreg, ho⟩ |
        ⟨t1, t2, e, hreg, hrm, ho⟩ | ⟨t1, t2, t3, hreg, hrm, hreg2, ho⟩ <;>
      rw [ho]
  · intro g hg
    rcases HandleMessage_cases env ev st with ho | ho | ⟨e, ho⟩ | ho | ⟨e, ho⟩ |
        ⟨t1, e, hreg, ho⟩ | ⟨t1, e, hreg, ho⟩ | ⟨t1, e, hreg, ho⟩ |
        ⟨t1, t2, e, hreg, hrm, ho⟩ | ⟨t1, t2, t3, hreg, hrm, hreg2, ho⟩ <;> rw [ho]
    · rw [show (⟨.ok (), ⟨removeQuiet (removeQuiet st.table ev.fd) ev.fd, st.running⟩,
          [.removeCall ev.fd, .guardFired ev.fd], false⟩ : MsgOut).state.table
          = removeQuiet (removeQuiet st.table ev.fd) ev.fd from rfl,
        lookupReg_removeQuiet_other _ _ _ hg, lookupReg_removeQuiet_other _ _ _ hg]
    · exact lookupReg_removeQuiet_other _ _ _ hg
    · exact lookupReg_removeQuiet_other _ _ _ hg
    · rw [show (⟨.ok (), ⟨removeQuiet (removeQuiet st.table ev.fd) ev.fd, st.running⟩,
          [.getRequestCall, .removeCall ev.fd, .guardFired ev.fd], false⟩
          : MsgOut).state.table = removeQuiet (removeQuiet st.table ev.fd) ev.fd from rfl,
        lookupReg_removeQuiet_other _ _ _ hg, lookupReg_removeQuiet_other _ _ _ hg]
    · exact lookupReg_removeQuiet_other _ _ _ hg
    · rw [show (lookupReg g (removeQuiet t1 ev.fd)) = lookupReg g t1 from
          lookupReg_removeQuiet_other _ _ _ hg]
      exact lookupReg_register_other _ _ _ _ _ hreg hg
    · rw [show (lookupReg g (removeQuiet t1 ev.fd)) = lookupReg g t1 from
          lookupReg_removeQuiet_other _ _ _ hg]
      exact lookupReg_register_other _ _ _ _ _ hreg hg
    · rw [show (lookupReg g (removeQuiet t1 ev.fd)) = lookupReg g t1 from
          lookupReg_removeQuiet_other _ _ _ hg]
      exact lookupReg_register_other _ _ _ _ _ hreg hg
    · rw [show (lookupReg g (removeQuiet t2 ev.fd)) = lookupReg g t2 from
          lookupReg_removeQuiet_other _ _ _ hg,
        lookupReg_remove_other _ _ _ _ hrm hg]
      exact lookupReg_register_other _ _ _ _ _ hreg hg
    · rw [show (⟨.ok (), ⟨t3, st.running⟩,
          [.getRequestCall, .registerHup ev.fd, .handleCall, .sendResponseCall,
           .clearHandler, .removeCall ev.fd, .registerIn ev.fd], true⟩
          : MsgOut).state.table = t3 from rfl,
        lookupReg_register_other _ _ _ _ _ hreg2 hg,
        lookupReg_remove_other _ _ _ _ hrm hg]
      exact lookupReg_register_other _ _ _ _ _ hreg hg
  · intro e he
    unfold AcceptClient at he ⊢
    cases hin : ev.events_in with
    | false => simp [hin, acceptGuardExit]
    | true =>
      cases har : aenv.acceptResult with
      | error e2 => simp [hin, har, acceptGuardExit]
      | ok cfd =>
        cases hr1 : poolRegister st.table cfd CbKind.handleMessage with
        | error e2 => simp [hin, har, hr1, acceptGuardExit]
        | ok t1 =>
          cases hr2 : poolRegister t1 ev.fd CbKind.acceptClient with
          | error e2 => simp [hin, har, hr1, hr2, acceptGuardExit]
          | ok t2 =>
            exfalso
            simp [hin, har, hr1, hr2, acceptGuardExit] at he

/-- C5 witness: concrete runs — a message failure preserves the flag
and the listener's registration; a failed accept stops the server. -/
theorem connection_scoped_failure_witness :
    (HandleMessage envReadFail evIn5 stRun).state.running = stRun.running
    ∧ lookupReg 3 (HandleMessage envReadFail evIn5 stRun).state.table
        = lookupReg 3 stRun.table
    ∧ (AcceptClient envAcceptFail evIn5 stRun).state.running = false := by
  obtain ⟨h1, h2, h3⟩ :=
    connection_scoped_failure envReadFail envAcceptFail evIn5 stRun
  exact ⟨h1, h2 3 (by decide), h3 (.msg "accept failed") rfl⟩

/-- C6: on every erroring execution of `HandleMessage` the
abandon-client guard fires and the descriptor ends with no live
registration; on every execution reaching the terminal re-registration
step of the success path the guard was cancelled and never fires. -/
theorem scope_guard_cleanup (env : MsgEnv) (ev : EpollEvent) (st : ServerState) :
    (∀ e, (HandleMessage env ev st).result = .error e →
        (HandleMessage env ev st).guardCancelled = false
        ∧ TraceEv.guardFired ev.fd ∈ (HandleMessage env ev st).trace
        ∧ lookupReg ev.fd (HandleMessage env ev st).state.table = none)
    ∧ ((HandleMessage env ev st).result = .ok () →
        TraceEv.registerIn ev.fd ∈ (HandleMessage env ev st).trace →
        (HandleMessage env ev st).guardCancelled = true
        ∧ TraceEv.guardFired ev.fd ∉ (HandleMessage env ev st).trace) := by
  rcases HandleMessage_cases env ev st with ho | ho | ⟨e2, ho⟩ | ho | ⟨e2, ho⟩ |
      ⟨t1, e2, hreg, ho⟩ | ⟨t1, e2, hreg, ho⟩ | ⟨t1, e2, hreg, ho⟩ |
      ⟨t1, t2, e2, hreg, hrm, ho⟩ | ⟨t1, t2, t3, hreg, hrm, hreg2, ho⟩ <;>
    rw [ho] <;>
    refine ⟨fun e he => ?_, fun hok hmem => ?_⟩ <;>
    simp_all [lookupReg_removeQuiet_self]

/-- C6 witness: the guard fires on a concrete failing read. -/
theorem scope_guard_cleanup_witness :
    (HandleMessage envReadFail evIn5 stRun).guardCancelled = false
    ∧ TraceEv.guardFired evIn5.fd ∈ (HandleMessage envReadFail evIn5 stRun).trace :=
  let h := (scope_guard_cleanup envReadFail evIn5 stRun).1 (.msg "read failed") rfl
  ⟨h.1, h.2.1⟩

/-- C7: within one connection requests are strictly sequential — in
every `HandleMessage` trace, no re-arming of the descriptor's read
callback occurs before the previous response's write has completed. -/
theorem connection_sequencing (env : MsgEnv) (ev : EpollEvent) (st : ServerState) :
    sendBeforeRegisterIn ev.fd (HandleMessage env ev st).trace = true := by
  rcases HandleMessage_cases env ev st with ho | ho | ⟨e2, ho⟩ | ho | ⟨e2, ho⟩ |
      ⟨t1, e2, hreg, ho⟩ | ⟨t1, e2, hreg, ho⟩ | ⟨t1, e2, hreg, ho⟩ |
      ⟨t1, t2, e2, hreg, hrm, ho⟩ | ⟨t1, t2, t3, hreg, hrm, hreg2, ho⟩ <;>
    rw [ho] <;> simp [sendBeforeRegisterIn]

/-- C8: registration discipline — `Remove` on a descriptor with no live
registration is an error rather than a silent success, `Register`
refuses a second live registration, both preserve key uniqueness of the
table, and every path of `HandleMessage` and `AcceptClient` preserves
the at-most-one-registration-per-descriptor invariant. -/
theorem registration_discipline :
    (∀ t fd, keyMem fd t = false →
        poolRemove t fd = .error (.msg "Remove: no callback registered"))
    ∧ (∀ t fd cb, keyMem fd t = true →
        poolRegister t fd cb = .error (.msg "Already have a callback created"))
    ∧ (∀ t fd cb t2, keysNodup t → poolRegister t fd cb = .ok t2 → keysNodup t2)
    ∧ (∀ t fd t2, keysNodup t → poolRemove t fd = .ok t2 → keysNodup t2)
    ∧ (∀ env ev st, keysNodup st.table →
        keysNodup (HandleMessage env ev st).state.table)
    ∧ (∀ aenv ev st, keysNodup st.table →
        keysNodup (AcceptClient aenv ev st).state.table) := by
  refine ⟨poolRemove_absent, ?_, keysNodup_poolRegister, keysNodup_poolRemove, ?_, ?_⟩
  · intro t fd cb h
    simp [poolRegister, h]
  · intro env ev st hnd
    rcases HandleMessage_cases env ev st with ho | ho | ⟨e, ho⟩ | ho | ⟨e, ho⟩ |
        ⟨t1, e, hreg, ho⟩ | ⟨t1, e, hreg, ho⟩ | ⟨t1, e, hreg, ho⟩ |
        ⟨t1, t2, e, hreg, hrm, ho⟩ | ⟨t1, t2, t3, hreg, hrm, hreg2, ho⟩ <;> rw [ho]
    · exact keysNodup_removeQuiet _ _ (keysNodup_removeQuiet _ _ hnd)
    · exact keysNodup_removeQuiet _ _ hnd
    · exact keysNodup_removeQuiet _ _ hnd
    · exact keysNodup_removeQuiet _ _ (keysNodup_removeQuiet _ _ hnd)
    · exact keysNodup_removeQuiet _ _ hnd
    · exact keysNodup_removeQuiet _ _ (keysNodup_poolRegister _ _ _ _ hnd hreg)
    · exact keysNodup_removeQuiet _ _ (keysNodup_poolRegister _ _ _ _ hnd hreg)
    · exact keysNodup_removeQuiet _ _ (keysNodup_poolRegister _ _ _ _ hnd hreg)
    · exact keysNodup_removeQuiet _ _
        (keysNodup_poolRemove _ _ _ (keysNodup_poolRegister _ _ _ _ hnd hreg) hrm)
    · exact keysNodup_poolRegister _ _ _ _
        (keysNodup_poolRemove _ _ _ (keysNodup_poolRegister _ _ _ _ hnd hreg) hrm) hreg2
  · intro aenv ev st hnd
    unfold AcceptClient
    cases hin : ev.events_in with
    | false => simpa [hin, acceptGuardExit] using hnd
    | true =>
      cases har : aenv.acceptResult with
      | error e => simpa [hin, har, acceptGuardExit] using hnd
      | ok cfd =>
        cases hr1 : poolRegister st.table cfd CbKind.handleMessage with
        | error e => simpa [hin, har, hr1, acceptGuardExit] using hnd
        | ok t1 =>
          have hnd1 := keysNodup_poolRegister _ _ _ _ hnd hr1
          cases hr2 : poolRegister t1 ev.fd CbKind.acceptClient with
          | error e => simpa [hin, har, hr1, hr2, acceptGuardExit] using hnd1
          | ok t2 =>
            have hnd2 := keysNodup_poolRegister _ _ _ _ hnd1 hr2
            simpa [hin, har, hr1, hr2, acceptGuardExit] using hnd2

/-- C8 witness: the discipline applied at concrete inputs. -/
theorem registration_discipline_witness :
    poolRemove [] 5 = .error (.msg "Remove: no callback registered")
    ∧ poolRegister [(5, CbKind.handleMessage)] 5 CbKind.interruptCb
        = .error (.msg "Already have a callback created")
    ∧ keysNodup (HandleMessage envOk evIn5 stRun).state.table := by
  obtain ⟨h1, h2, h3, h4, h5, h6⟩ := registration_discipline
  refine ⟨h1 [] 5 rfl, h2 [(5, CbKind.handleMessage)] 5 CbKind.interruptCb rfl,
    h5 envOk evIn5 stRun ?_⟩
  unfold keysNodup stRun
  decide
